import Mathlib

/-!
Verification of the Meson build-tool adapter
(`src/pycheribuild/projects/meson_project.py`, class `MesonProject`).

The Python class is shallowly embedded as pure Lean functions over an
explicit state.  Read-only configuration of a project instance (flags,
directories, collaborator query results) lives in `ProjectInputs`; the
attributes the methods actually mutate (`configure_args`,
`meson_options`, environments, LDFLAGS, the toolchain-file path and the
minimum tool version) live in `ProjectState`.  External effects (writing
toolchain files, running subprocesses, logging) are recorded as `Event`
values; fallible code (Python `assert`, raised exceptions) returns
`Except String`.  The filesystem is modelled as the list of existing
paths, and results of `shutil.which` / host-toolchain queries performed
by out-of-repository collaborators are modelled as data in `World`.
-/

/-- Result of `target_info` queries used by `MesonProject`
(`is_freebsd`, `is_baremetal`, `is_cheribsd`,
`pkg_config_libdir_override`, `additional_rpath_directories`,
`default_libdir`, `linker`). The class only reads these values. -/
structure TargetInfo where
  is_freebsd : Bool
  is_baremetal : Bool
  is_cheribsd : Bool
  pkg_config_libdir_override : Option String
  additional_rpath_directories : List String
  default_libdir : String
  linker : String
  deriving DecidableEq

/-- Read-only configuration of one `MesonProject` instance: everything the
methods in `meson_project.py` read but never assign.  `install_prefix_path`
models the source attribute `install_prefix` and `crosscompile_target_name`
the printed form of `crosscompile_target`; `build_type_meson_args` models
the result of `self.build_type.to_meson_args()` (the `BuildType` enum is
outside `src/`); `rootfs_dir = none` models the `LookupError` raised by the
`rootfs_dir` property when the target has no rootfs. -/
structure ProjectInputs where
  build_dir : String
  source_dir : String
  install_prefix_path : String
  install_dir : String
  destdir : Option String
  force_configure : Bool
  with_clean : Bool
  compiling_for_host : Bool
  use_lto : Bool
  use_asan : Bool
  cc_is_clang : Bool
  build_type_meson_args : List (String × String)
  make_jobs : Nat
  copy_compilation_db_to_source_dir : Bool
  other_tools_dir : String
  host_dependency_prefixes : List String
  dependency_install_prefixes : List String
  rootfs_dir : Option String
  target : String
  crosscompile_target_name : String
  cpu_family : String
  endianess : String
  meson_extra_binaries : String
  meson_extra_properties : String
  meson_test_script_extra_args : List String
  target_info : TargetInfo
  deriving DecidableEq

/-- The attributes of `MesonProject` that the embedded methods assign:
`configure_command`, `configure_args`, the accumulated Meson `-D` options
(`add_meson_options`), `configure_environment`, the `make_args`
environment, `COMMON_LDFLAGS`, `_toolchain_file` and
`_minimum_cmake_or_meson_version`. -/
structure ProjectState where
  configure_command : String
  configure_args : List String
  meson_options : List (String × String)
  configure_environment : List (String × String)
  make_env : List (String × String)
  common_ldflags : List String
  toolchain_file : Option String
  minimum_cmake_or_meson_version : Option (Nat × Nat × Nat)
  deriving DecidableEq

/-- Results of queries this file treats as external collaborators inside
`configure()`: `shutil.which` lookups (as an association list from tool
name to resolved path, `none`-by-absence), the `CMAKE_COMMAND`
environment variable, the host compilers `self.host_CC`/`self.host_CXX`,
and the stub `NativeTargetInfo` queries `pkgconfig_candidates` and
`cmake_prefix_paths` (both outside `src/`). -/
structure World where
  which_results : List (String × String)
  cmake_command_env : Option String
  host_CC : String
  host_CXX : String
  pkgconfig_candidates : List (String × List String)
  host_cmake_prefix_paths : List String
  deriving DecidableEq

/-- Observable external effects of `configure()` and `run_tests()`:
`prepareToolchainFile` records `_prepare_toolchain_file_common` (writing
the cross/native machine file with the given substitutions),
`writeNativeToolchainFile` records `_replace_values_in_toolchain_file`
for the host machine file, `runCmd` records `self.run_cmd`,
`mainConfigure` records the `super().configure()` invocation with the
final accumulated argument list, `installFile` records
`self.install_file`, `infoMsg` records `self.info`, and
`runCheribsdTestScript` records
`target_info.run_cheribsd_test_script`. -/
inductive Event where
  | prepareToolchainFile (path linker cpu_family endianess extra_binaries extra_properties
      pkg_config_bin cmake_bin : String)
  | writeNativeToolchainFile (path host_cc host_cxx pkg_config_bin cmake_bin : String)
      (native_pkg_config_path : List String) (native_cmake_prefix_path : List String)
  | runCmd (args : List String)
  | mainConfigure (cmd : String) (args : List String)
  | installFile (src dst : String)
  | infoMsg (parts : List String)
  | runCheribsdTestScript (script : String) (extra_args : List String)
  deriving DecidableEq

/-- Python tuple comparison `(a1,a2,a3) >= (b1,b2,b3)`: lexicographic
greater-or-equal on version triples, as used by the assertion in
`set_minimum_meson_version` (line 60). -/
def versionGe (a b : Nat × Nat × Nat) : Bool :=
  decide (b.1 < a.1 ∨ (b.1 = a.1 ∧ (b.2.1 < a.2.1 ∨ (b.2.1 = a.2.1 ∧ b.2.2 ≤ a.2.2))))

/-- Lines 58-61: `set_minimum_meson_version(major, minor, patch=0)`.
The `assert` on line 60 (`new_version` is only accepted when no floor is
stored yet or it does not lower the stored floor) is modelled as the
`Except.error` branch; the assignment on line 61 only happens after the
assertion passes, so a failing call leaves the stored floor unchanged. -/
def set_minimum_meson_version (st : ProjectState) (major minor patch : Nat) :
    Except String ProjectState :=
  let new_version := (major, minor, patch)
  if st.minimum_cmake_or_meson_version.all (fun old => versionGe new_version old) then
    Except.ok { st with minimum_cmake_or_meson_version := some new_version }
  else
    Except.error "assert: attempted to lower the tool version floor"

/-- Lines 74-81: `__init__`.  `configure_command` is taken from the
`MESON_COMMAND` environment variable (modelled as the `meson_command_env`
argument) with default `"meson"`, `"setup"` is inserted at position 0 of
`configure_args`, and the minimum Meson version is raised to `(0, 57, 0)`
(the `patch` argument defaults to 0 in the source).  The base-class
`__init__` (outside `src/`) leaves `_minimum_cmake_or_meson_version`
unset, which callers express through `st.minimum_cmake_or_meson_version
= none`. -/
def mesonInit (st : ProjectState) (meson_command_env : Option String) :
    Except String ProjectState :=
  let st := { st with configure_command := meson_command_env.getD "meson" }
  let st := { st with configure_args := "setup" :: st.configure_args }
  set_minimum_meson_version st 0 57 0

/-- Lines 132-133: `needs_configure` returns the negation of
`(self.build_dir / "build.ninja").exists()`.  The filesystem is the list
of existing paths. -/
def needs_configure (i : ProjectInputs) (fs : List String) : Bool :=
  !(fs.contains (i.build_dir ++ "/build.ninja"))

/-- Folds `set_minimum_meson_version` over a list of version triples:
one call per triple, stopping at the first assertion failure.  Used to
state the sequence form of the version-floor invariant. -/
def runVersionCalls (st : ProjectState) : List (Nat × Nat × Nat) → Except String ProjectState
  | [] => Except.ok st
  | v :: vs =>
    match set_minimum_meson_version st v.1 v.2.1 v.2.2 with
    | Except.ok st2 => runVersionCalls st2 vs
    | Except.error e => Except.error e

theorem set_minimum_ok (st : ProjectState) (v : Nat × Nat × Nat)
    (h : st.minimum_cmake_or_meson_version.all (fun old => versionGe v old) = true) :
    set_minimum_meson_version st v.1 v.2.1 v.2.2 =
      Except.ok { st with minimum_cmake_or_meson_version := some v } := by
  unfold set_minimum_meson_version
  simp [h]

theorem runVersionCalls_chain :
    ∀ (vs : List (Nat × Nat × Nat)) (st : ProjectState) (v0 : Nat × Nat × Nat),
      st.minimum_cmake_or_meson_version = some v0 →
      List.Chain (fun a b => versionGe b a = true) v0 vs →
      ∃ st2, runVersionCalls st vs = Except.ok st2 ∧
        st2.minimum_cmake_or_meson_version = some (vs.getLastD v0) := by
  intro vs
  induction vs with
  | nil =>
    intro st v0 hmin _
    exact ⟨st, rfl, by simpa using hmin⟩
  | cons v vs ih =>
    intro st v0 hmin hchain
    cases hchain with
    | cons hge hchain2 =>
      have hok := set_minimum_ok st v (by simp [hmin, hge])
      obtain ⟨st2, hrun, hlast⟩ :=
        ih { st with minimum_cmake_or_meson_version := some v } v (by simp) hchain2
      refine ⟨st2, ?_, ?_⟩
      · unfold runVersionCalls
        rw [hok]
        exact hrun
      · rw [List.getLastD_cons]
        exact hlast

/-- C2: starting from an instance whose version floor is unset, a
sequence of `set_minimum_meson_version` calls with non-decreasing
triples all pass the assertion and leave the floor equal to the last
triple; a single call whose triple is strictly below the stored floor
fails the assertion (and, since the assignment on line 61 follows the
assertion, leaves the floor unchanged: the error branch returns no
updated state). -/
theorem c2_version_floor_monotone (st : ProjectState) (vs : List (Nat × Nat × Nat))
    (hnone : st.minimum_cmake_or_meson_version = none)
    (hchain : List.Chain' (fun a b => versionGe b a = true) vs) :
    (∀ last, vs.getLast? = some last →
      ∃ st2, runVersionCalls st vs = Except.ok st2 ∧
        st2.minimum_cmake_or_meson_version = some last) ∧
    (∀ (st3 : ProjectState) (old w : Nat × Nat × Nat),
      st3.minimum_cmake_or_meson_version = some old →
      versionGe w old = false →
      set_minimum_meson_version st3 w.1 w.2.1 w.2.2 =
        Except.error "assert: attempted to lower the tool version floor") := by
  constructor
  · intro last hlast
    cases vs with
    | nil => simp at hlast
    | cons v vs2 =>
      have hok := set_minimum_ok st v (by simp [hnone])
      have hchain2 : List.Chain (fun a b => versionGe b a = true) v vs2 := hchain
      obtain ⟨st2, hrun, hmin⟩ :=
        runVersionCalls_chain vs2 { st with minimum_cmake_or_meson_version := some v } v
          (by simp) hchain2
      have hconv : vs2.getLastD v = last := by
        cases vs2 with
        | nil => simpa using hlast
        | cons w t =>
          rw [List.getLast?_cons_cons] at hlast
          rw [List.getLastD_eq_getLast? v, hlast]
          rfl
      refine ⟨st2, ?_, ?_⟩
      · unfold runVersionCalls
        rw [hok]
        exact hrun
      · rw [hmin, hconv]
  · intro st3 old w hold hlt
    unfold set_minimum_meson_version
    simp [hold, hlt]

/-- Witness for C2 at concrete inputs: floor unset, calls
(0,57,0) then (0,61,2) succeed ending at (0,61,2); lowering a stored
floor (0,57,0) to (0,56,9) fails. -/
theorem c2_version_floor_monotone_witness :
    (∃ st2, runVersionCalls
        { configure_command := "meson", configure_args := [], meson_options := [],
          configure_environment := [], make_env := [], common_ldflags := [],
          toolchain_file := none, minimum_cmake_or_meson_version := none }
        [(0, 57, 0), (0, 61, 2)] = Except.ok st2 ∧
      st2.minimum_cmake_or_meson_version = some (0, 61, 2)) ∧
    set_minimum_meson_version
        { configure_command := "meson", configure_args := [], meson_options := [],
          configure_environment := [], make_env := [], common_ldflags := [],
          toolchain_file := none, minimum_cmake_or_meson_version := some (0, 57, 0) }
        0 56 9 =
      Except.error "assert: attempted to lower the tool version floor" := by
  have h := c2_version_floor_monotone
    { configure_command := "meson", configure_args := [], meson_options := [],
      configure_environment := [], make_env := [], common_ldflags := [],
      toolchain_file := none, minimum_cmake_or_meson_version := none }
    [(0, 57, 0), (0, 61, 2)] rfl (List.Chain.cons (by decide) List.Chain.nil)
  exact ⟨h.1 (0, 61, 2) rfl,
    h.2 { configure_command := "meson", configure_args := [], meson_options := [],
          configure_environment := [], make_env := [], common_ldflags := [],
          toolchain_file := none, minimum_cmake_or_meson_version := some (0, 57, 0) }
      (0, 57, 0) (0, 56, 9) rfl (by decide)⟩

/-- C4: `needs_configure()` is true exactly when `build.ninja` is absent
from the build directory, and becomes false once that file exists. -/
theorem c4_needs_configure (i : ProjectInputs) (fs : List String) :
    (needs_configure i fs = true ↔ fs.contains (i.build_dir ++ "/build.ninja") = false) ∧
    needs_configure i ((i.build_dir ++ "/build.ninja") :: fs) = false := by
  unfold needs_configure
  constructor
  · cases h : fs.contains (i.build_dir ++ "/build.ninja") <;> simp [h]
  · simp [List.contains_cons]

/-- C10: right after `__init__` (which calls
`set_minimum_meson_version(0, 57)`, with `patch` defaulting to 0) the
stored version floor is `(0, 57, 0)`, and every later call with a triple
strictly below `(0, 57, 0)` fails the assertion on line 60. -/
theorem c10_init_floor (st : ProjectState) (env : Option String)
    (hnone : st.minimum_cmake_or_meson_version = none) :
    ∃ st2, mesonInit st env = Except.ok st2 ∧
      st2.minimum_cmake_or_meson_version = some (0, 57, 0) ∧
      ∀ ma mi pa, versionGe (ma, mi, pa) (0, 57, 0) = false →
        set_minimum_meson_version st2 ma mi pa =
          Except.error "assert: attempted to lower the tool version floor" := by
  refine ⟨{ st with configure_command := env.getD "meson", configure_args := "setup" :: st.configure_args, minimum_cmake_or_meson_version := some (0, 57, 0) }, ?_, rfl, ?_⟩
  · unfold mesonInit set_minimum_meson_version
    simp [hnone]
  · intro ma mi pa hlt
    unfold set_minimum_meson_version
    simp [hlt]

/-- Witness for C10: a concrete freshly constructed instance has floor
`(0, 57, 0)` and rejects `(0, 55, 3)`. -/
theorem c10_init_floor_witness :
    ∃ st2, mesonInit
        { configure_command := "", configure_args := [], meson_options := [],
          configure_environment := [], make_env := [], common_ldflags := [],
          toolchain_file := none, minimum_cmake_or_meson_version := none }
        none = Except.ok st2 ∧
      st2.minimum_cmake_or_meson_version = some (0, 57, 0) ∧
      ∀ ma mi pa, versionGe (ma, mi, pa) (0, 57, 0) = false →
        set_minimum_meson_version st2 ma mi pa =
          Except.error "assert: attempted to lower the tool version floor" :=
  c10_init_floor
    { configure_command := "", configure_args := [], meson_options := [],
      configure_environment := [], make_env := [], common_ldflags := [],
      toolchain_file := none, minimum_cmake_or_meson_version := none }
    none rfl

/-- Python `"true" if value else "false"` (lines 141-142, `_bool_to_str`),
used when rendering boolean Meson option values. -/
def bool_to_str (value : Bool) : String :=
  if value then "true" else "false"

/-- One `key=value` update of the accumulated option list.  Modelled from
the spec: the actual option store lives in `_add_configure_options` of
the `_CMakeAndMesonSharedLogic` base class, which is not under `src/`;
the spec describes `BuildOptions` as an ordered key/value list with
unique keys and last-write-wins replacement.  An existing key keeps its
position and receives the new value; a new key is appended. -/
def setOption (opts : List (String × String)) (k v : String) : List (String × String) :=
  if opts.any (fun kv => kv.1 == k) then
    opts.map (fun kv => if kv.1 == k then (k, v) else kv)
  else
    opts ++ [(k, v)]

/-- Lines 88-90, `add_meson_options` forwarding to the base class:
applies each keyword option in order via `setOption` (replace
semantics, `_replace=True`). -/
def add_meson_options (opts : List (String × String)) (kwargs : List (String × String)) :
    List (String × String) :=
  kwargs.foldl (fun acc kv => setOption acc kv.1 kv.2) opts

/-- Python `dict.update` / `env.set_env` with a single key, used for
`configure_environment.update(PKG_CONFIG_LIBDIR=...)` and
`make_args.set_env(PKG_CONFIG_LIBDIR=...)` on lines 108-109. -/
def envUpdate (env : List (String × String)) (k v : String) : List (String × String) :=
  setOption env k v

/-- Modelled from the spec: `remove_duplicates` is imported from
`pycheribuild.utils`, which is not under `src/`; the spec describes it
as deduplication of a list preserving first-seen order. -/
def remove_duplicates (items : List String) : List String :=
  items.foldl (fun acc x => if acc.contains x then acc else acc ++ [x]) []

/-- `pathlib.Path.relative_to` on the string model of paths: returns the
path relative to `root` when `s` lies under `root`, and `none` (Python
`ValueError`) otherwise.  Paths are plain strings; no normalization is
modelled. -/
def path_relative_to (s root : String) : Option String :=
  if s = root then some "."
  else if (root ++ "/").isPrefixOf s then some (s.drop (root ++ "/").length)
  else none

/-- Property `_native_toolchain_file` (lines 83-86): asserts the build is
not a host build and returns `<build-dir>/meson-native-file.ini`. -/
def native_toolchain_file (i : ProjectInputs) : Except String String :=
  if i.compiling_for_host then Except.error "assert: not compiling_for_host"
  else Except.ok (i.build_dir ++ "/meson-native-file.ini")

/-- Lines 95-109 of `setup()`: pick the machine files.  Cross builds
assert a FreeBSD or baremetal target (line 96), set `_toolchain_file` to
`meson-cross-file.ini` and pass `--cross-file` plus a `--native-file`;
host builds set `_toolchain_file` to `meson-native-file.ini`, pass
`--native-file`, and propagate `pkg_config_libdir_override` into both
environment surfaces. -/
def setup_machine_files (i : ProjectInputs) (st : ProjectState) : Except String ProjectState :=
  if !i.compiling_for_host then
    if !(i.target_info.is_freebsd || i.target_info.is_baremetal) then
      Except.error "Only tested FreeBSD/baremetal"
    else
      let tf := i.build_dir ++ "/meson-cross-file.ini"
      let st1 := { st with toolchain_file := some tf,
                           configure_args := st.configure_args ++ ["--cross-file", tf] }
      (native_toolchain_file i).map (fun ntf =>
        { st1 with configure_args := st1.configure_args ++ ["--native-file", ntf] })
  else
    let tf := i.build_dir ++ "/meson-native-file.ini"
    let st1 := { st with toolchain_file := some tf,
                         configure_args := st.configure_args ++ ["--native-file", tf] }
    match i.target_info.pkg_config_libdir_override with
    | some d =>
      Except.ok { st1 with
        configure_environment := envUpdate st1.configure_environment "PKG_CONFIG_LIBDIR" d,
        make_env := envUpdate st1.make_env "PKG_CONFIG_LIBDIR" d }
    | none => Except.ok st1

/-- Lines 110-111 of `setup()`: append `--reconfigure` when a forced
reconfigure is requested, no clean is pending, and
`<build-dir>/meson-info` exists. -/
def setup_reconfigure (i : ProjectInputs) (fs : List String) (st : ProjectState) : ProjectState :=
  if i.force_configure && !i.with_clean && fs.contains (i.build_dir ++ "/meson-info") then
    { st with configure_args := st.configure_args ++ ["--reconfigure"] }
  else st

/-- Lines 113-119 of `setup()`: `--wrap-mode=nofallback`, the build-type
options, the LTO options (only with `use_lto`; `b_lto_mode` is `thin`
exactly when the detected compiler is Clang) and the sanitizer options
(only with `use_asan`).  Boolean values are rendered with
`bool_to_str`, `make_jobs` with `toString`. -/
def setup_options (i : ProjectInputs) (st : ProjectState) : ProjectState :=
  let st1 := { st with configure_args := st.configure_args ++ ["--wrap-mode=nofallback"] }
  let st2 := { st1 with meson_options := add_meson_options st1.meson_options i.build_type_meson_args }
  let lto_kwargs := [("b_lto", bool_to_str true), ("b_lto_threads", toString i.make_jobs),
    ("b_lto_mode", if i.cc_is_clang then "thin" else "default")]
  let st3 :=
    if i.use_lto then
      { st2 with meson_options := add_meson_options st2.meson_options lto_kwargs }
    else st2
  let asan_kwargs := [("b_sanitize", "address,undefined"), ("b_lundef", bool_to_str false)]
  if i.use_asan then
    { st3 with meson_options := add_meson_options st3.meson_options asan_kwargs }
  else st3

/-- Lines 124-127 of `setup()`: the rootfs rewrite of the extra library
directories.  `rootfs_dir = none` models the `LookupError` raised by the
`rootfs_dir` property, which `contextlib.suppress(LookupError)` turns
into keeping the absolute paths; a path outside the rootfs makes
`Path.relative_to` raise `ValueError`, which is not suppressed. -/
def rewrite_into_rootfs (i : ProjectInputs) (dirs : List String) : Except String (List String) :=
  match i.rootfs_dir with
  | none => Except.ok dirs
  | some root =>
    dirs.mapM (fun s =>
      match path_relative_to s root with
      | some rel => Except.ok ("/" ++ rel)
      | none => Except.error "ValueError: path is not relative to the rootfs")

/-- Lines 121-130 of `setup()`: for cross builds compute the extra
library directories (one `default_libdir` per dependency install
prefix), rewrite them into the rootfs when there is one, deduplicate
them together with `additional_rpath_directories`, and append a single
`-Wl,-rpath=` flag joining the result with `:` — skipping the append
entirely when the deduplicated list is empty. -/
def setup_rpath (i : ProjectInputs) (st : ProjectState) : Except String ProjectState :=
  if !i.compiling_for_host then
    let extra_libdirs :=
      i.dependency_install_prefixes.map (fun s => s ++ "/" ++ i.target_info.default_libdir)
    (rewrite_into_rootfs i extra_libdirs).map (fun dirs =>
      let rpath_dirs := remove_duplicates (i.target_info.additional_rpath_directories ++ dirs)
      if rpath_dirs = [] then st
      else { st with common_ldflags := st.common_ldflags ++ ["-Wl,-rpath=" ++ String.intercalate ":" rpath_dirs] })
  else Except.ok st

/-- Lines 92-130: `setup()`.  `super().setup()` and the
`_toolchain_template` load (line 94) have no effect on the modelled
state; the remaining blocks run in source order.  `setup()` writes no
file: the machine files are only written during `configure()`. -/
def setup (i : ProjectInputs) (fs : List String) (st : ProjectState) :
    Except String ProjectState :=
  (setup_machine_files i st).bind (fun st1 =>
    setup_rpath i (setup_options i (setup_reconfigure i fs st1)))

/-- Lines 149-179 of `configure()`: resolve `pkg-config` and `cmake`
(falling back to the literal names when `shutil.which` finds nothing),
write the machine file recorded in `_toolchain_file` via
`_prepare_toolchain_file_common`, and, when cross-compiling, write the
native machine file with the host compilers and the deduplicated
host pkg-config / cmake search paths (asserting that
`config.other_tools_dir` is among the host dependency prefixes,
line 168). -/
def configure_toolchain_events (i : ProjectInputs) (w : World) (st : ProjectState) :
    Except String (List Event) :=
  let pkg_config_bin := (w.which_results.lookup "pkg-config").getD "pkg-config"
  let cmake_bin := (w.which_results.lookup (w.cmake_command_env.getD "cmake")).getD "cmake"
  match st.toolchain_file with
  | none => Except.error "AttributeError: _toolchain_file was never assigned"
  | some tf =>
    let ev1 := [Event.prepareToolchainFile tf i.target_info.linker i.cpu_family i.endianess
        i.meson_extra_binaries i.meson_extra_properties pkg_config_bin cmake_bin]
    if !i.compiling_for_host then
      (native_toolchain_file i).bind (fun ntf =>
        if !(i.host_dependency_prefixes.contains i.other_tools_dir) then
          Except.error "assert: other_tools_dir not in host_dependency_prefixes"
        else
          let host_pkg_config_dirs := i.host_dependency_prefixes.flatMap
              (fun x => (w.pkgconfig_candidates.lookup x).getD [])
          Except.ok (ev1 ++ [Event.writeNativeToolchainFile ntf w.host_CC w.host_CXX
              pkg_config_bin cmake_bin
              (remove_duplicates host_pkg_config_dirs)
              (remove_duplicates (i.host_dependency_prefixes ++ w.host_cmake_prefix_paths))]))
    else Except.ok ev1

/-- Lines 181-185 of `configure()`: when the install prefix differs from
the install directory, assert that a DESTDIR is configured (Python
truthiness of `self.destdir`) and pass the custom prefix; otherwise pass
the plain install directory. -/
def configure_install_prefix_opt (i : ProjectInputs) (st : ProjectState) :
    Except String ProjectState :=
  if i.install_prefix_path ≠ i.install_dir then
    match i.destdir with
    | none => Except.error "custom install prefix requires DESTDIR being set!"
    | some _ =>
      Except.ok { st with meson_options := add_meson_options st.meson_options [("prefix", i.install_prefix_path)] }
  else
    Except.ok { st with meson_options := add_meson_options st.meson_options [("prefix", i.install_dir)] }

/-- Lines 186-190 of `configure()`: under the same condition as lines
110-111, append `--reconfigure` once more and run
`meson configure --clearcache` in the build directory. -/
def configure_reconfigure (i : ProjectInputs) (fs : List String) (st : ProjectState) :
    ProjectState × List Event :=
  if i.force_configure && !i.with_clean && fs.contains (i.build_dir ++ "/meson-info") then
    ({ st with configure_args := st.configure_args ++ ["--reconfigure"] },
     [Event.runCmd [st.configure_command, "configure", "--clearcache"]])
  else (st, [])

/-- Lines 148-196: `configure()`.  Toolchain files are written first,
then the install-prefix option is decided, then the reconfigure
work-around runs, then the source and build directories are appended as
the final two positional arguments and `super().configure()` is invoked
with the accumulated arguments; finally `compile_commands.json` is
copied back to the source tree when requested and present. -/
def configure (i : ProjectInputs) (w : World) (fs : List String) (st : ProjectState) :
    Except String (ProjectState × List Event) :=
  (configure_toolchain_events i w st).bind (fun ev1 =>
    (configure_install_prefix_opt i st).bind (fun st1 =>
      let pe := configure_reconfigure i fs st1
      let st2 := { pe.1 with configure_args := pe.1.configure_args ++ [i.source_dir] }
      let st3 := { st2 with configure_args := st2.configure_args ++ [i.build_dir] }
      let evMain := [Event.mainConfigure st3.configure_command st3.configure_args]
      let evDb :=
        if i.copy_compilation_db_to_source_dir &&
            fs.contains (i.build_dir ++ "/compile_commands.json") then
          [Event.installFile (i.build_dir ++ "/compile_commands.json")
            (i.source_dir ++ "/compile_commands.json")]
        else []
      Except.ok (st3, ev1 ++ pe.2 ++ evMain ++ evDb)))

/-- Lines 198-207: `run_tests()`.  Host builds run `meson test
--print-errorlogs`; CHERI-BSD cross builds delegate to the remote test
script; any other cross target only logs an informational message and
runs nothing.  The function is total: no branch raises. -/
def run_tests (i : ProjectInputs) (st : ProjectState) : List Event :=
  if i.compiling_for_host then
    [Event.runCmd [st.configure_command, "test", "--print-errorlogs"]]
  else if i.target_info.is_cheribsd then
    [Event.runCheribsdTestScript "run_meson_tests.py" i.meson_test_script_extra_args]
  else
    [Event.infoMsg ["Don't know how to run tests for", i.target, "when cross-compiling for",
      i.crosscompile_target_name]]

/-- A concrete cross-target description used by witnesses: FreeBSD,
not baremetal, not CHERI-BSD. -/
def tiFreebsd : TargetInfo :=
  { is_freebsd := true, is_baremetal := false, is_cheribsd := false,
    pkg_config_libdir_override := none, additional_rpath_directories := [],
    default_libdir := "lib", linker := "ld.lld" }

/-- A concrete target description for an unsupported cross target:
neither FreeBSD nor baremetal nor CHERI-BSD. -/
def tiOther : TargetInfo :=
  { is_freebsd := false, is_baremetal := false, is_cheribsd := false,
    pkg_config_libdir_override := none, additional_rpath_directories := [],
    default_libdir := "lib", linker := "ld" }

/-- A concrete host-build project configuration used by witnesses. -/
def hostInputs : ProjectInputs :=
  { build_dir := "/b", source_dir := "/s", install_prefix_path := "/i", install_dir := "/i",
    destdir := none, force_configure := true, with_clean := false, compiling_for_host := true,
    use_lto := true, use_asan := false, cc_is_clang := true,
    build_type_meson_args := [("buildtype", "debugoptimized")], make_jobs := 4,
    copy_compilation_db_to_source_dir := false, other_tools_dir := "/t",
    host_dependency_prefixes := ["/t"], dependency_install_prefixes := [], rootfs_dir := none,
    target := "demo", crosscompile_target_name := "native", cpu_family := "x86_64",
    endianess := "little", meson_extra_binaries := "", meson_extra_properties := "",
    meson_test_script_extra_args := [], target_info := tiOther }

/-- A concrete cross-build project configuration (FreeBSD target) used by
witnesses. -/
def crossInputs : ProjectInputs :=
  { hostInputs with compiling_for_host := false, target_info := tiFreebsd }

/-- The state of a freshly initialised project instance, as produced by
`__init__` on a base state with empty accumulators. -/
def state0 : ProjectState :=
  { configure_command := "meson", configure_args := ["setup"], meson_options := [],
    configure_environment := [], make_env := [], common_ldflags := [],
    toolchain_file := none, minimum_cmake_or_meson_version := some (0, 57, 0) }

/-- A concrete collaborator world where `shutil.which` finds nothing and
the host search-path queries return nothing. -/
def world0 : World :=
  { which_results := [], cmake_command_env := none, host_CC := "/usr/bin/cc",
    host_CXX := "/usr/bin/c++", pkgconfig_candidates := [], host_cmake_prefix_paths := [] }

/-- C3: a cross-compilation target that is neither FreeBSD nor baremetal
makes `setup()` fail at the assertion on line 96.  In this model every
file write is an `Event` of `configure()`; `setup` emits no event and
returns no state on this failure, so no toolchain file can have been
written: `_toolchain_file` is not even assigned. -/
theorem c3_unsupported_cross_target (i : ProjectInputs) (fs : List String) (st : ProjectState)
    (hcross : i.compiling_for_host = false)
    (hfb : i.target_info.is_freebsd = false) (hbm : i.target_info.is_baremetal = false) :
    setup i fs st = Except.error "Only tested FreeBSD/baremetal" := by
  unfold setup setup_machine_files
  simp [hcross, hfb, hbm, Except.bind]

/-- Witness for C3: concrete unsupported cross target. -/
theorem c3_unsupported_cross_target_witness :
    setup { hostInputs with compiling_for_host := false } [] state0 =
      Except.error "Only tested FreeBSD/baremetal" :=
  c3_unsupported_cross_target { hostInputs with compiling_for_host := false } [] state0
    rfl rfl rfl

/-- C9: when cross-compiling for anything that is not CHERI-BSD,
`run_tests()` only emits the informational message naming the target and
the cross-compilation architecture: no command is run, no test script is
invoked, and (the embedded `run_tests` being a total function whose
third branch only calls `self.info`) no exception is raised. -/
theorem c9_run_tests_cross_noop (i : ProjectInputs) (st : ProjectState)
    (hcross : i.compiling_for_host = false) (hncb : i.target_info.is_cheribsd = false) :
    run_tests i st = [Event.infoMsg ["Don't know how to run tests for", i.target,
        "when cross-compiling for", i.crosscompile_target_name]] ∧
    (∀ args, Event.runCmd args ∉ run_tests i st) ∧
    (∀ script extra, Event.runCheribsdTestScript script extra ∉ run_tests i st) := by
  unfold run_tests
  refine ⟨by simp [hcross, hncb], ?_, ?_⟩
  · intro args
    simp [hcross, hncb]
  · intro script extra
    simp [hcross, hncb]

/-- Witness for C9: concrete non-CHERI-BSD cross target. -/
theorem c9_run_tests_cross_noop_witness :
    run_tests crossInputs state0 = [Event.infoMsg ["Don't know how to run tests for", "demo",
        "when cross-compiling for", "native"]] ∧
    (∀ args, Event.runCmd args ∉ run_tests crossInputs state0) ∧
    (∀ script extra, Event.runCheribsdTestScript script extra ∉ run_tests crossInputs state0) :=
  c9_run_tests_cross_noop crossInputs state0 rfl rfl

theorem lookup_cons_beq_true {β : Type} (a k : String) (b : β) (l : List (String × β))
    (h : (a == k) = true) : ((k, b) :: l).lookup a = some b := by
  simp only [List.lookup]
  rw [h]

theorem lookup_cons_beq_false {β : Type} (a k : String) (b : β) (l : List (String × β))
    (h : (a == k) = false) : ((k, b) :: l).lookup a = l.lookup a := by
  simp only [List.lookup]
  rw [h]

theorem beq_false_symm (a b : String) (h : (a == b) = false) : (b == a) = false := by
  simp only [beq_eq_false_iff_ne] at h ⊢
  exact h.symm

theorem lookup_map_replace (k v : String) :
    ∀ opts : List (String × String),
      (opts.map (fun kv => if kv.1 == k then (k, v) else kv)).lookup k =
        if opts.any (fun kv => kv.1 == k) then some v else none := by
  intro opts
  induction opts with
  | nil => rfl
  | cons kv rest ih =>
    obtain ⟨k1, v1⟩ := kv
    simp only [List.map_cons, List.any_cons]
    rcases Bool.eq_false_or_eq_true (k1 == k) with hbeq | hbeq
    · simp only [hbeq, if_true, Bool.true_or]
      rw [lookup_cons_beq_true k k v _ (by simp)]
    · simp only [hbeq, Bool.false_eq_true, if_false, Bool.false_or]
      rw [lookup_cons_beq_false k k1 v1 _ (beq_false_symm k1 k hbeq)]
      exact ih

theorem lookup_map_replace_ne (k v k2 : String) (h : k2 ≠ k) :
    ∀ opts : List (String × String),
      (opts.map (fun kv => if kv.1 == k then (k, v) else kv)).lookup k2 = opts.lookup k2 := by
  intro opts
  induction opts with
  | nil => rfl
  | cons kv rest ih =>
    obtain ⟨k1, v1⟩ := kv
    simp only [List.map_cons]
    rcases Bool.eq_false_or_eq_true (k1 == k) with hbeq | hbeq
    · have hk2 : (k2 == k) = false := beq_false_of_ne h
      have hk1 : (k2 == k1) = false := by
        have he : k1 = k := by simpa using hbeq
        rw [he]
        exact hk2
      simp only [hbeq, if_true]
      rw [lookup_cons_beq_false k2 k v _ hk2, lookup_cons_beq_false k2 k1 v1 rest hk1]
      exact ih
    · simp only [hbeq, Bool.false_eq_true, if_false]
      rcases Bool.eq_false_or_eq_true (k2 == k1) with hb2 | hb2
      · rw [lookup_cons_beq_true k2 k1 v1 _ hb2, lookup_cons_beq_true k2 k1 v1 rest hb2]
      · rw [lookup_cons_beq_false k2 k1 v1 _ hb2, lookup_cons_beq_false k2 k1 v1 rest hb2]
        exact ih

theorem lookup_none_of_any_false (k : String) :
    ∀ opts : List (String × String),
      opts.any (fun kv => kv.1 == k) = false → opts.lookup k = none := by
  intro opts
  induction opts with
  | nil => intro _; rfl
  | cons kv rest ih =>
    intro h
    obtain ⟨k1, v1⟩ := kv
    simp only [List.any_cons, Bool.or_eq_false_iff] at h
    rw [lookup_cons_beq_false k k1 v1 rest (beq_false_symm k1 k h.1)]
    exact ih h.2

theorem lookup_append_right_of_none {β : Type} (k : String) :
    ∀ (l1 l2 : List (String × β)), l1.lookup k = none → (l1 ++ l2).lookup k = l2.lookup k := by
  intro l1
  induction l1 with
  | nil => intro l2 _; rfl
  | cons kv rest ih =>
    intro l2 h
    obtain ⟨k1, v1⟩ := kv
    rcases Bool.eq_false_or_eq_true (k == k1) with hb | hb
    · rw [lookup_cons_beq_true k k1 v1 rest hb] at h
      exact absurd h (by simp)
    · rw [lookup_cons_beq_false k k1 v1 rest hb] at h
      rw [List.cons_append, lookup_cons_beq_false k k1 v1 _ hb]
      exact ih l2 h

theorem lookup_append_single_ne {β : Type} (k k2 : String) (v : β) (h : (k2 == k) = false) :
    ∀ l : List (String × β), (l ++ [(k, v)]).lookup k2 = l.lookup k2 := by
  intro l
  induction l with
  | nil => rw [List.nil_append, lookup_cons_beq_false k2 k v [] h]
  | cons kv rest ih =>
    obtain ⟨k1, v1⟩ := kv
    rcases Bool.eq_false_or_eq_true (k2 == k1) with hb | hb
    · rw [List.cons_append, lookup_cons_beq_true k2 k1 v1 _ hb,
        lookup_cons_beq_true k2 k1 v1 rest hb]
    · rw [List.cons_append, lookup_cons_beq_false k2 k1 v1 _ hb,
        lookup_cons_beq_false k2 k1 v1 rest hb]
      exact ih

theorem lookup_setOption_self (opts : List (String × String)) (k v : String) :
    (setOption opts k v).lookup k = some v := by
  unfold setOption
  rcases Bool.eq_false_or_eq_true (opts.any (fun kv => kv.1 == k)) with hany | hany
  · simp only [hany, if_true]
    rw [lookup_map_replace k v opts, hany]
    rfl
  · simp only [hany, Bool.false_eq_true, if_false]
    rw [lookup_append_right_of_none k opts _ (lookup_none_of_any_false k opts hany)]
    rw [lookup_cons_beq_true k k v [] (by simp)]

theorem lookup_setOption_ne (opts : List (String × String)) (k v k2 : String) (h : k2 ≠ k) :
    (setOption opts k v).lookup k2 = opts.lookup k2 := by
  unfold setOption
  rcases Bool.eq_false_or_eq_true (opts.any (fun kv => kv.1 == k)) with hany | hany
  · simp only [hany, if_true]
    exact lookup_map_replace_ne k v k2 h opts
  · simp only [hany, Bool.false_eq_true, if_false]
    exact lookup_append_single_ne k k2 v (beq_false_of_ne h) opts

theorem lookup_add_meson_options_ne (k : String) :
    ∀ (kwargs : List (String × String)) (opts : List (String × String)),
      (∀ kv ∈ kwargs, k ≠ kv.1) →
      (add_meson_options opts kwargs).lookup k = opts.lookup k := by
  intro kwargs
  induction kwargs with
  | nil => intro opts _; rfl
  | cons kv rest ih =>
    intro opts h
    unfold add_meson_options at ih ⊢
    rw [List.foldl_cons]
    rw [ih (setOption opts kv.1 kv.2) (fun x hx => h x (List.mem_cons_of_mem kv hx))]
    exact lookup_setOption_ne opts kv.1 kv.2 k (h kv (List.mem_cons_self kv rest))
theorem lookup_add_three (opts : List (String × String)) (k1 v1 k2 v2 k3 v3 : String)
    (h12 : k1 ≠ k2) (h13 : k1 ≠ k3) (h23 : k2 ≠ k3) :
    (add_meson_options opts [(k1, v1), (k2, v2), (k3, v3)]).lookup k1 = some v1 ∧
    (add_meson_options opts [(k1, v1), (k2, v2), (k3, v3)]).lookup k2 = some v2 ∧
    (add_meson_options opts [(k1, v1), (k2, v2), (k3, v3)]).lookup k3 = some v3 := by
  unfold add_meson_options
  simp only [List.foldl_cons, List.foldl_nil]
  refine ⟨?_, ?_, ?_⟩
  · rw [lookup_setOption_ne _ k3 v3 k1 h13, lookup_setOption_ne _ k2 v2 k1 h12]
    exact lookup_setOption_self _ k1 v1
  · rw [lookup_setOption_ne _ k3 v3 k2 h23]
    exact lookup_setOption_self _ k2 v2
  · exact lookup_setOption_self _ k3 v3

theorem setup_rpath_preserves (i : ProjectInputs) (st st2 : ProjectState)
    (h : setup_rpath i st = Except.ok st2) :
    st2.meson_options = st.meson_options ∧ st2.configure_args = st.configure_args ∧
    st2.configure_command = st.configure_command := by
  unfold setup_rpath at h
  split at h
  · simp only [Except.map] at h
    cases hrw : rewrite_into_rootfs i
        (i.dependency_install_prefixes.map (fun s => s ++ "/" ++ i.target_info.default_libdir)) with
    | error e =>
      rw [hrw] at h
      simp at h
    | ok dirs =>
      rw [hrw] at h
      simp only [Except.ok.injEq] at h
      split at h <;> simp [← h]
  · simp only [Except.ok.injEq] at h
    simp [← h]

theorem setup_reconfigure_preserves (i : ProjectInputs) (fs : List String) (st : ProjectState) :
    (setup_reconfigure i fs st).meson_options = st.meson_options ∧
    (setup_reconfigure i fs st).configure_command = st.configure_command ∧
    (setup_reconfigure i fs st).common_ldflags = st.common_ldflags := by
  unfold setup_reconfigure
  split <;> exact ⟨rfl, rfl, rfl⟩

theorem setup_machine_files_preserves (i : ProjectInputs) (st st2 : ProjectState)
    (h : setup_machine_files i st = Except.ok st2) :
    st2.meson_options = st.meson_options ∧ st2.configure_command = st.configure_command ∧
    st2.common_ldflags = st.common_ldflags := by
  unfold setup_machine_files at h
  split at h
  · split at h
    · simp at h
    · unfold native_toolchain_file at h
      split at h
      · simp [Except.map] at h
      · simp only [Except.map, Except.ok.injEq] at h
        simp [← h]
  · split at h <;>
      · simp only [Except.ok.injEq] at h
        simp [← h]

/-- The `meson_options` accumulated by `setup()` are exactly those of
`setup_options` applied after `setup_machine_files`. -/
theorem setup_meson_options (i : ProjectInputs) (fs : List String) (st st4 : ProjectState)
    (h : setup i fs st = Except.ok st4) :
    ∃ st1, setup_machine_files i st = Except.ok st1 ∧
      st4.meson_options = (setup_options i (setup_reconfigure i fs st1)).meson_options := by
  unfold setup at h
  cases hmf : setup_machine_files i st with
  | error e =>
    rw [hmf] at h
    simp [Except.bind] at h
  | ok st1 =>
    rw [hmf] at h
    simp only [Except.bind] at h
    exact ⟨st1, rfl, ((setup_rpath_preserves i _ st4 h).1)⟩

/-- C7: with LTO enabled, the option set accumulated by `setup()`
contains `b_lto=true`, `b_lto_threads` equal to the configured
parallelism (`config.make_jobs`) and `b_lto_mode=thin` exactly when the
detected compiler is Clang, `default` otherwise. -/
theorem c7_lto_options (i : ProjectInputs) (fs : List String) (st st4 : ProjectState)
    (hlto : i.use_lto = true) (hsetup : setup i fs st = Except.ok st4) :
    st4.meson_options.lookup "b_lto" = some "true" ∧
    st4.meson_options.lookup "b_lto_threads" = some (toString i.make_jobs) ∧
    st4.meson_options.lookup "b_lto_mode" = some (if i.cc_is_clang then "thin" else "default") := by
  obtain ⟨st1, hmf, hopts⟩ := setup_meson_options i fs st st4 hsetup
  rw [hopts]
  unfold setup_options
  simp only [hlto, if_true]
  have hthree := lookup_add_three
    (add_meson_options (setup_reconfigure i fs st1).meson_options i.build_type_meson_args)
    "b_lto" (bool_to_str true) "b_lto_threads" (toString i.make_jobs)
    "b_lto_mode" (if i.cc_is_clang then "thin" else "default")
    (by decide) (by decide) (by decide)
  by_cases hasan : i.use_asan
  · simp only [hasan, if_true]
    have hskip := fun k hk =>
      lookup_add_meson_options_ne k [("b_sanitize", "address,undefined"),
        ("b_lundef", bool_to_str false)]
        (add_meson_options
          (add_meson_options (setup_reconfigure i fs st1).meson_options i.build_type_meson_args)
          [("b_lto", bool_to_str true), ("b_lto_threads", toString i.make_jobs),
           ("b_lto_mode", if i.cc_is_clang then "thin" else "default")]) hk
    refine ⟨?_, ?_, ?_⟩
    · rw [hskip "b_lto" (by decide)]
      exact hthree.1
    · rw [hskip "b_lto_threads" (by decide)]
      exact hthree.2.1
    · rw [hskip "b_lto_mode" (by decide)]
      exact hthree.2.2
  · rw [Bool.not_eq_true] at hasan
    simp only [hasan, Bool.false_eq_true, if_false]
    exact hthree

/-- Witness for C7: a concrete host build with LTO and a Clang compiler. -/
theorem c7_lto_options_witness :
    ∃ st4, setup hostInputs [] state0 = Except.ok st4 ∧
      (st4.meson_options.lookup "b_lto" = some "true" ∧
       st4.meson_options.lookup "b_lto_threads" = some (toString hostInputs.make_jobs) ∧
       st4.meson_options.lookup "b_lto_mode" =
         some (if hostInputs.cc_is_clang then "thin" else "default")) := by
  refine ⟨(match setup hostInputs [] state0 with
    | Except.ok s => s
    | Except.error _ => state0), rfl, ?_⟩
  exact c7_lto_options hostInputs [] state0 _ rfl rfl

theorem add_meson_options_single (opts : List (String × String)) (k v : String) :
    add_meson_options opts [(k, v)] = setOption opts k v := rfl

theorem configure_reconfigure_meson_options (i : ProjectInputs) (fs : List String)
    (st : ProjectState) : (configure_reconfigure i fs st).1.meson_options = st.meson_options := by
  unfold configure_reconfigure
  split <;> rfl

theorem configure_reconfigure_command (i : ProjectInputs) (fs : List String)
    (st : ProjectState) :
    (configure_reconfigure i fs st).1.configure_command = st.configure_command := by
  unfold configure_reconfigure
  split <;> rfl

/-- Splits a successful run of `configure()` into its four blocks: the
toolchain-file events, the install-prefix option, the reconfigure
work-around and the final command assembly. -/
theorem configure_decompose (i : ProjectInputs) (w : World) (fs : List String)
    (st st2 : ProjectState) (evs : List Event)
    (h : configure i w fs st = Except.ok (st2, evs)) :
    ∃ ev1 st1, configure_toolchain_events i w st = Except.ok ev1 ∧
      configure_install_prefix_opt i st = Except.ok st1 ∧
      st2 = { (configure_reconfigure i fs st1).1 with
        configure_args := (configure_reconfigure i fs st1).1.configure_args ++
          [i.source_dir] ++ [i.build_dir] } ∧
      evs = ev1 ++ (configure_reconfigure i fs st1).2 ++
        [Event.mainConfigure (configure_reconfigure i fs st1).1.configure_command
          ((configure_reconfigure i fs st1).1.configure_args ++ [i.source_dir] ++ [i.build_dir])] ++
        (if i.copy_compilation_db_to_source_dir &&
            fs.contains (i.build_dir ++ "/compile_commands.json") then
          [Event.installFile (i.build_dir ++ "/compile_commands.json")
            (i.source_dir ++ "/compile_commands.json")]
        else []) := by
  unfold configure at h
  cases hte : configure_toolchain_events i w st with
  | error e =>
    rw [hte] at h
    simp [Except.bind] at h
  | ok ev1 =>
    rw [hte] at h
    simp only [Except.bind] at h
    cases hip : configure_install_prefix_opt i st with
    | error e =>
      rw [hip] at h
      simp [Except.bind] at h
    | ok st1 =>
      rw [hip] at h
      simp only [Except.bind, Except.ok.injEq, Prod.mk.injEq] at h
      exact ⟨ev1, st1, rfl, rfl, h.1.symm, h.2.symm⟩

/-- C8: if the install prefix equals the plain install directory,
`configure()` puts `prefix=<install-dir>` into the option set; if they
differ and no DESTDIR is configured, `configure()` fails at the
assertion on line 182 (stated after the toolchain-file block, the only
part of `configure()` that runs before the assertion, has succeeded);
if they differ and a DESTDIR is configured, the custom prefix is
passed. -/
theorem c8_install_prefix_option (i : ProjectInputs) (w : World) (fs : List String)
    (st : ProjectState) :
    (i.install_prefix_path = i.install_dir →
      ∀ st2 evs, configure i w fs st = Except.ok (st2, evs) →
        st2.meson_options.lookup "prefix" = some i.install_dir) ∧
    (i.install_prefix_path ≠ i.install_dir → i.destdir = none →
      ∀ ev1, configure_toolchain_events i w st = Except.ok ev1 →
        configure i w fs st = Except.error "custom install prefix requires DESTDIR being set!") ∧
    (i.install_prefix_path ≠ i.install_dir → ∀ d, i.destdir = some d →
      ∀ st2 evs, configure i w fs st = Except.ok (st2, evs) →
        st2.meson_options.lookup "prefix" = some i.install_prefix_path) := by
  refine ⟨?_, ?_, ?_⟩
  · intro heq st2 evs hconf
    obtain ⟨ev1, st1, hte, hip, hst2, hevs⟩ := configure_decompose i w fs st st2 evs hconf
    have hm : st1.meson_options =
        add_meson_options st.meson_options [("prefix", i.install_dir)] := by
      unfold configure_install_prefix_opt at hip
      rw [if_neg (fun hn => hn heq)] at hip
      simp only [Except.ok.injEq] at hip
      rw [← hip]
    rw [hst2]
    show (configure_reconfigure i fs st1).1.meson_options.lookup "prefix" = some i.install_dir
    rw [configure_reconfigure_meson_options, hm, add_meson_options_single]
    exact lookup_setOption_self st.meson_options "prefix" i.install_dir
  · intro hne hdest ev1 hte
    unfold configure
    rw [hte]
    simp only [Except.bind]
    unfold configure_install_prefix_opt
    rw [if_pos hne, hdest]
  · intro hne d hdest st2 evs hconf
    obtain ⟨ev1, st1, hte, hip, hst2, hevs⟩ := configure_decompose i w fs st st2 evs hconf
    have hm : st1.meson_options =
        add_meson_options st.meson_options [("prefix", i.install_prefix_path)] := by
      unfold configure_install_prefix_opt at hip
      rw [if_pos hne, hdest] at hip
      simp only [Except.ok.injEq] at hip
      rw [← hip]
    rw [hst2]
    show (configure_reconfigure i fs st1).1.meson_options.lookup "prefix" =
      some i.install_prefix_path
    rw [configure_reconfigure_meson_options, hm, add_meson_options_single]
    exact lookup_setOption_self st.meson_options "prefix" i.install_prefix_path

/-- A project state whose toolchain file has been chosen, as `setup()`
leaves it for a host build of `hostInputs`. -/
def stateTc : ProjectState :=
  { state0 with toolchain_file := some "/b/meson-native-file.ini" }

/-- Extraction of the concrete result of `configure` for the
equal-prefix scenario of C8. -/
def c8ResultA : ProjectState × List Event :=
  match configure hostInputs world0 [] stateTc with
  | Except.ok pr => pr
  | Except.error _ => (state0, [])

/-- Concrete inputs for the custom-prefix scenarios of C8. -/
def c8InputsB : ProjectInputs :=
  { hostInputs with install_prefix_path := "/p" }

/-- Concrete inputs for the custom-prefix-with-DESTDIR scenario of C8. -/
def c8InputsC : ProjectInputs :=
  { hostInputs with install_prefix_path := "/p", destdir := some "/d" }

/-- Extraction of the concrete toolchain events for scenario B of C8. -/
def c8EvB : List Event :=
  match configure_toolchain_events c8InputsB world0 stateTc with
  | Except.ok evs => evs
  | Except.error _ => []

/-- Extraction of the concrete result of `configure` for scenario C of
C8. -/
def c8ResultC : ProjectState × List Event :=
  match configure c8InputsC world0 [] stateTc with
  | Except.ok pr => pr
  | Except.error _ => (state0, [])

/-- Witness for C8: the three scenarios at concrete inputs — equal
prefix passes `prefix=/i`; custom prefix `/p` without DESTDIR fails the
assertion; custom prefix `/p` with DESTDIR `/d` passes `prefix=/p`. -/
theorem c8_install_prefix_option_witness :
    (c8ResultA.1.meson_options.lookup "prefix" = some "/i") ∧
    (configure c8InputsB world0 [] stateTc =
      Except.error "custom install prefix requires DESTDIR being set!") ∧
    (c8ResultC.1.meson_options.lookup "prefix" = some "/p") :=
  ⟨(c8_install_prefix_option hostInputs world0 [] stateTc).1 rfl c8ResultA.1 c8ResultA.2 rfl,
   (c8_install_prefix_option c8InputsB world0 [] stateTc).2.1 (by decide) rfl c8EvB rfl,
   (c8_install_prefix_option c8InputsC world0 [] stateTc).2.2 (by decide) "/d" rfl
     c8ResultC.1 c8ResultC.2 rfl⟩

/-- The first-occurrence characterisation of deduplication that the spec
describes for `remove_duplicates`: keep each element at its first
position, drop every later repeat. -/
def firstOccurrences : List String → List String
  | [] => []
  | x :: xs => x :: firstOccurrences (xs.filter (fun y => !(y == x)))
termination_by l => l.length
decreasing_by
  simp only [List.length_cons]
  exact Nat.lt_succ_of_le (List.length_filter_le _ _)

theorem firstOccurrences_nil : firstOccurrences [] = [] := by
  rw [firstOccurrences]

theorem firstOccurrences_cons (a : String) (l : List String) :
    firstOccurrences (a :: l) = a :: firstOccurrences (l.filter (fun y => !(y == a))) := by
  rw [firstOccurrences]

theorem contains_append_single (acc : List String) (x a : String) :
    (!((acc ++ [x]).contains a)) = (!(a == x) && !(acc.contains a)) := by
  by_cases h1 : a = x
  · subst h1
    simp [List.contains_eq_any_beq]
  · by_cases h2 : a ∈ acc
    · simp [List.contains_eq_any_beq, h1, h2]
    · simp [List.contains_eq_any_beq, h1, h2]

theorem remove_duplicates_go :
    ∀ (xs acc : List String),
      xs.foldl (fun acc x => if acc.contains x then acc else acc ++ [x]) acc =
        acc ++ firstOccurrences (xs.filter (fun y => !(acc.contains y))) := by
  intro xs
  induction xs with
  | nil =>
    intro acc
    simp [firstOccurrences]
  | cons x xs ih =>
    intro acc
    rw [List.foldl_cons, List.filter_cons]
    rcases Bool.eq_false_or_eq_true (acc.contains x) with hc | hc
    · simp only [hc, if_true, Bool.not_true, Bool.false_eq_true, if_false]
      exact ih acc
    · simp only [hc, Bool.false_eq_true, if_false, Bool.not_false, if_true]
      rw [ih (acc ++ [x]), firstOccurrences_cons, List.append_assoc, List.singleton_append]
      refine congrArg (fun t => acc ++ (x :: t)) ?_
      rw [List.filter_filter]
      refine congrArg firstOccurrences (List.filter_congr ?_)
      intro a ha
      exact contains_append_single acc x a

theorem remove_duplicates_eq_firstOccurrences (xs : List String) :
    remove_duplicates xs = firstOccurrences xs := by
  unfold remove_duplicates
  rw [remove_duplicates_go xs []]
  simp

theorem firstOccurrences_mem (n : Nat) :
    ∀ xs : List String, xs.length ≤ n → ∀ x, x ∈ firstOccurrences xs ↔ x ∈ xs := by
  induction n with
  | zero =>
    intro xs h x
    rw [List.length_eq_zero.mp (Nat.le_zero.mp h), firstOccurrences_nil]
  | succ n ih =>
    intro xs h x
    cases xs with
    | nil => rw [firstOccurrences_nil]
    | cons a l =>
      rw [firstOccurrences_cons, List.mem_cons, List.mem_cons]
      have hlen : (l.filter (fun y => !(y == a))).length ≤ n :=
        le_trans (List.length_filter_le _ _) (Nat.le_of_succ_le_succ h)
      rw [ih _ hlen x, List.mem_filter]
      constructor
      · rintro (rfl | ⟨hx, _⟩)
        · exact Or.inl rfl
        · exact Or.inr hx
      · rintro (rfl | hx)
        · exact Or.inl rfl
        · by_cases hax : x = a
          · exact Or.inl hax
          · exact Or.inr ⟨hx, by simp [hax]⟩

theorem firstOccurrences_nodup (n : Nat) :
    ∀ xs : List String, xs.length ≤ n → (firstOccurrences xs).Nodup := by
  induction n with
  | zero =>
    intro xs h
    rw [List.length_eq_zero.mp (Nat.le_zero.mp h), firstOccurrences_nil]
    exact List.nodup_nil
  | succ n ih =>
    intro xs h
    cases xs with
    | nil =>
      rw [firstOccurrences_nil]
      exact List.nodup_nil
    | cons a l =>
      rw [firstOccurrences_cons]
      have hlen : (l.filter (fun y => !(y == a))).length ≤ n :=
        le_trans (List.length_filter_le _ _) (Nat.le_of_succ_le_succ h)
      refine List.nodup_cons.mpr ⟨?_, ih _ hlen⟩
      intro hmem
      rw [firstOccurrences_mem n _ hlen a, List.mem_filter] at hmem
      simp at hmem

theorem remove_duplicates_count (xs : List String) (x : String) :
    (remove_duplicates xs).count x = if x ∈ xs then 1 else 0 := by
  rw [remove_duplicates_eq_firstOccurrences]
  by_cases hx : x ∈ xs
  · rw [if_pos hx]
    exact List.count_eq_one_of_mem (firstOccurrences_nodup xs.length xs le_rfl)
      ((firstOccurrences_mem xs.length xs le_rfl x).mpr hx)
  · rw [if_neg hx]
    exact List.count_eq_zero_of_not_mem
      (fun hc => hx ((firstOccurrences_mem xs.length xs le_rfl x).mp hc))

/-- C6: deduplication used for the search-path and RPATH lists keeps
each distinct entry exactly once (count 1 for members, 0 otherwise) in
first-seen order (it equals the first-occurrence recursion); and in the
RPATH block of `setup()` an empty deduplicated list appends no linker
flag at all, while a non-empty one appends exactly the single joined
`-Wl,-rpath=` flag built from the deduplicated list. -/
theorem c6_dedup_rpath (xs : List String) (x : String) (i : ProjectInputs) (st : ProjectState)
    (dirs : List String) (hcross : i.compiling_for_host = false)
    (hrw : rewrite_into_rootfs i (i.dependency_install_prefixes.map
      (fun s => s ++ "/" ++ i.target_info.default_libdir)) = Except.ok dirs) :
    remove_duplicates xs = firstOccurrences xs ∧
    (remove_duplicates xs).count x = (if x ∈ xs then 1 else 0) ∧
    (remove_duplicates (i.target_info.additional_rpath_directories ++ dirs) = [] →
      setup_rpath i st = Except.ok st) ∧
    (remove_duplicates (i.target_info.additional_rpath_directories ++ dirs) ≠ [] →
      setup_rpath i st = Except.ok { st with common_ldflags := st.common_ldflags ++
        ["-Wl,-rpath=" ++ String.intercalate ":"
          (remove_duplicates (i.target_info.additional_rpath_directories ++ dirs))] }) := by
  refine ⟨remove_duplicates_eq_firstOccurrences xs, remove_duplicates_count xs x, ?_, ?_⟩
  · intro hempty
    unfold setup_rpath
    simp only [hcross, Bool.not_false, if_true, hrw, Except.map]
    rw [if_pos hempty]
  · intro hne
    unfold setup_rpath
    simp only [hcross, Bool.not_false, if_true, hrw, Except.map]
    rw [if_neg hne]

/-- Witness for C6: `[a, b, a]` dedupes to its first occurrences with
`a` counted once, and the empty RPATH list of `crossInputs` appends no
flag. -/
theorem c6_dedup_rpath_witness :
    remove_duplicates ["a", "b", "a"] = firstOccurrences ["a", "b", "a"] ∧
    (remove_duplicates ["a", "b", "a"]).count "a" = 1 ∧
    setup_rpath crossInputs state0 = Except.ok state0 := by
  have h := c6_dedup_rpath ["a", "b", "a"] "a" crossInputs state0 [] rfl rfl
  refine ⟨h.1, ?_, h.2.2.1 rfl⟩
  rw [h.2.1]
  simp

theorem count_singleton_self (a : String) : ([a] : List String).count a = 1 := by
  rw [List.count_singleton]
  simp

theorem count_singleton_ne (a b : String) (h : ¬(b = a)) :
    ([b] : List String).count a = 0 := by
  rw [List.count_singleton]
  simp [h]

theorem append_ne_reconfigure (s t : String) (ht : 13 < t.length) :
    ¬(s ++ t = "--reconfigure") := by
  intro he
  have hl := congrArg String.length he
  rw [String.length_append] at hl
  have h13 : ("--reconfigure" : String).length = 13 := rfl
  omega

theorem count_pair_zero (a b : String) (ha : ¬(a = "--reconfigure"))
    (hb : ¬(b = "--reconfigure")) :
    ([a, b] : List String).count "--reconfigure" = 0 := by
  rw [List.count_eq_zero]
  intro hmem
  rcases List.mem_cons.mp hmem with h | h
  · exact ha h.symm
  · rcases List.mem_cons.mp h with h2 | h2
    · exact hb h2.symm
    · simp at h2

theorem setup_machine_files_args (i : ProjectInputs) (st st2 : ProjectState)
    (h : setup_machine_files i st = Except.ok st2) :
    st2.configure_args.count "--reconfigure" = st.configure_args.count "--reconfigure" ∧
    st2.configure_command = st.configure_command := by
  unfold setup_machine_files at h
  split at h
  · split at h
    · simp at h
    · unfold native_toolchain_file at h
      split at h
      · simp [Except.map] at h
      · simp only [Except.map, Except.ok.injEq] at h
        rw [← h]
        refine ⟨?_, rfl⟩
        show ((st.configure_args ++
          ["--cross-file", i.build_dir ++ "/meson-cross-file.ini"]) ++
          ["--native-file", i.build_dir ++ "/meson-native-file.ini"]).count "--reconfigure" =
          st.configure_args.count "--reconfigure"
        rw [List.count_append, List.count_append]
        rw [count_pair_zero _ _ (by decide)
          (append_ne_reconfigure i.build_dir "/meson-cross-file.ini" (by decide))]
        rw [count_pair_zero _ _ (by decide)
          (append_ne_reconfigure i.build_dir "/meson-native-file.ini" (by decide))]
        omega
  · split at h <;>
      simp only [Except.ok.injEq] at h <;>
      rw [← h] <;>
      refine ⟨?_, rfl⟩ <;>
      · show ((st.configure_args ++
          ["--native-file", i.build_dir ++ "/meson-native-file.ini"]).count "--reconfigure") =
          st.configure_args.count "--reconfigure"
        rw [List.count_append]
        rw [count_pair_zero _ _ (by decide)
          (append_ne_reconfigure i.build_dir "/meson-native-file.ini" (by decide))]
        omega

theorem setup_options_args (i : ProjectInputs) (st : ProjectState) :
    (setup_options i st).configure_args = st.configure_args ++ ["--wrap-mode=nofallback"] ∧
    (setup_options i st).configure_command = st.configure_command := by
  unfold setup_options
  by_cases h1 : i.use_lto <;> by_cases h2 : i.use_asan <;> simp [h1, h2]

theorem setup_reconfigure_args_true (i : ProjectInputs) (fs : List String) (st : ProjectState)
    (hcond : (i.force_configure && !i.with_clean &&
      fs.contains (i.build_dir ++ "/meson-info")) = true) :
    (setup_reconfigure i fs st).configure_args = st.configure_args ++ ["--reconfigure"] := by
  unfold setup_reconfigure
  rw [if_pos hcond]

theorem configure_install_prefix_opt_args (i : ProjectInputs) (st st2 : ProjectState)
    (h : configure_install_prefix_opt i st = Except.ok st2) :
    st2.configure_args = st.configure_args ∧ st2.configure_command = st.configure_command := by
  unfold configure_install_prefix_opt at h
  split at h
  · split at h
    · simp at h
    · simp only [Except.ok.injEq] at h
      rw [← h]
      exact ⟨rfl, rfl⟩
  · simp only [Except.ok.injEq] at h
    rw [← h]
    exact ⟨rfl, rfl⟩

theorem configure_reconfigure_true (i : ProjectInputs) (fs : List String) (st : ProjectState)
    (hcond : (i.force_configure && !i.with_clean &&
      fs.contains (i.build_dir ++ "/meson-info")) = true) :
    configure_reconfigure i fs st =
      ({ st with configure_args := st.configure_args ++ ["--reconfigure"] },
       [Event.runCmd [st.configure_command, "configure", "--clearcache"]]) := by
  unfold configure_reconfigure
  rw [if_pos hcond]

/-- C1 (amended): under a forced reconfigure with the clean flag unset
and `meson-info` present, the condition on line 110 makes `setup()`
append `--reconfigure`, and the identical condition on line 188 makes
`configure()` append it a second time, so the final accumulated
argument list handed to the main configure command contains
`--reconfigure` exactly twice (not once); the
`meson configure --clearcache` subcommand is still issued before the
main configure command. -/
theorem c1_reconfigure_twice (i : ProjectInputs) (w : World) (fs : List String)
    (st0 st1 st2 : ProjectState) (evs : List Event)
    (hsetup : setup i fs st0 = Except.ok st1)
    (hconf : configure i w fs st1 = Except.ok (st2, evs))
    (hforce : i.force_configure = true) (hclean : i.with_clean = false)
    (hinfo : fs.contains (i.build_dir ++ "/meson-info") = true)
    (hcount0 : st0.configure_args.count "--reconfigure" = 0)
    (hsrc : i.source_dir ≠ "--reconfigure") (hbld : i.build_dir ≠ "--reconfigure") :
    st2.configure_args.count "--reconfigure" = 2 ∧
    List.Sublist [Event.runCmd [st1.configure_command, "configure", "--clearcache"],
      Event.mainConfigure st2.configure_command st2.configure_args] evs := by
  have hcond : (i.force_configure && !i.with_clean &&
      fs.contains (i.build_dir ++ "/meson-info")) = true := by
    rw [hforce, hclean, hinfo]
    rfl
  unfold setup at hsetup
  cases hmf : setup_machine_files i st0 with
  | error e =>
    rw [hmf] at hsetup
    simp [Except.bind] at hsetup
  | ok stA =>
    rw [hmf] at hsetup
    simp only [Except.bind] at hsetup
    obtain ⟨hcntA, hcmdA⟩ := setup_machine_files_args i st0 stA hmf
    obtain ⟨hargsO, hcmdO⟩ := setup_options_args i (setup_reconfigure i fs stA)
    obtain ⟨_, hargsP, hcmdP⟩ := setup_rpath_preserves i _ st1 hsetup
    have hcount1 : st1.configure_args.count "--reconfigure" = 1 := by
      rw [hargsP, hargsO, setup_reconfigure_args_true i fs stA hcond]
      rw [List.count_append, List.count_append, hcntA, hcount0, count_singleton_self,
        count_singleton_ne _ _ (by decide)]
    obtain ⟨ev1, stB, hte, hip, hst2, hevs⟩ := configure_decompose i w fs st1 st2 evs hconf
    obtain ⟨hargsB, hcmdB⟩ := configure_install_prefix_opt_args i st1 stB hip
    rw [configure_reconfigure_true i fs stB hcond] at hst2 hevs
    have hargs2 : st2.configure_args =
        stB.configure_args ++ ["--reconfigure"] ++ [i.source_dir] ++ [i.build_dir] := by
      rw [hst2]
    have hcmd2 : st2.configure_command = stB.configure_command := by
      rw [hst2]
    constructor
    · rw [hargs2, List.count_append, List.count_append, List.count_append, hargsB, hcount1,
        count_singleton_self, count_singleton_ne _ _ (fun he => hsrc he),
        count_singleton_ne _ _ (fun he => hbld he)]
    · rw [hevs, hcmd2, hargs2, ← hcmdB]
      dsimp only
      exact (List.Sublist.append
        (List.sublist_append_right ev1
          [Event.runCmd [stB.configure_command, "configure", "--clearcache"]])
        (List.Sublist.refl [Event.mainConfigure stB.configure_command
          (stB.configure_args ++ ["--reconfigure"] ++ [i.source_dir] ++ [i.build_dir])])).trans
        (List.sublist_append_left _ _)

/-- The composite run of `setup()` followed by `configure()` on the
concrete counterexample input of C1. -/
def c1Run : Except String (ProjectState × List Event) :=
  (setup hostInputs ["/b/meson-info"] state0).bind
    (fun st1 => configure hostInputs world0 ["/b/meson-info"] st1)

/-- Counterexample to C1 as stated: on a concrete run satisfying the
scenario (forced reconfigure, no clean, `meson-info` present), the
final accumulated argument list contains `--reconfigure` twice, not
exactly once. -/
theorem c1_counterexample :
    c1Run.map (fun pr => pr.1.configure_args.count "--reconfigure") = Except.ok 2 ∧
    ¬(c1Run.map (fun pr => pr.1.configure_args.count "--reconfigure") = Except.ok 1) := by
  constructor
  · rfl
  · intro h
    rw [show c1Run.map (fun pr => pr.1.configure_args.count "--reconfigure") =
      Except.ok 2 from rfl] at h
    injection h with h2
    exact absurd h2 (by decide)

/-- Extraction of the concrete state left by `setup()` on the C1
scenario. -/
def c1SetupRes : ProjectState :=
  match setup hostInputs ["/b/meson-info"] state0 with
  | Except.ok st => st
  | Except.error _ => state0

/-- Extraction of the concrete result of `configure()` on the C1
scenario. -/
def c1ConfRes : ProjectState × List Event :=
  match configure hostInputs world0 ["/b/meson-info"] c1SetupRes with
  | Except.ok pr => pr
  | Except.error _ => (state0, [])

/-- Witness for the amended C1 at the concrete scenario input. -/
theorem c1_reconfigure_twice_witness :
    c1ConfRes.1.configure_args.count "--reconfigure" = 2 ∧
    List.Sublist [Event.runCmd [c1SetupRes.configure_command, "configure", "--clearcache"],
      Event.mainConfigure c1ConfRes.1.configure_command c1ConfRes.1.configure_args]
      c1ConfRes.2 :=
  c1_reconfigure_twice hostInputs world0 ["/b/meson-info"] state0 c1SetupRes c1ConfRes.1
    c1ConfRes.2 rfl rfl rfl rfl rfl rfl (by decide) (by decide)

/-- Single quote, written by code point. -/
def SQ : Char := Char.ofNat 39

/-- Double quote, written by code point. -/
def DQ : Char := Char.ofNat 34

/-- Backslash, written by code point. -/
def BSL : Char := Char.ofNat 92

/-- Horizontal tab. -/
def TAB : Char := Char.ofNat 9

/-- Line feed. -/
def LF : Char := Char.ofNat 10

/-- Carriage return. -/
def CR : Char := Char.ofNat 13

/-- Lower-case hexadecimal digit for a value below 16, as produced by
CPython string escapes. -/
def hexDigitChar (n : Nat) : Char :=
  if n < 10 then Char.ofNat (48 + n) else Char.ofNat (87 + n)

/-- CPython `repr` escaping of one character inside a string literal
quoted with `q`: backslash and the quote character get a backslash,
tab/newline/carriage-return use their letter escapes, other control
characters (below space, or delete) become `\xNN`; everything else is
emitted literally.  (CPython additionally `\x`-escapes non-printable
characters above `0x7f`; this model keeps those literal, which only
moves characters between the two parseable forms.) -/
def pyEscapeChar (q c : Char) : List Char :=
  if c = BSL then [BSL, BSL]
  else if c = q then [BSL, q]
  else if c = TAB then [BSL, Char.ofNat 116]
  else if c = LF then [BSL, Char.ofNat 110]
  else if c = CR then [BSL, Char.ofNat 114]
  else if c.toNat < 32 ∨ c.toNat = 127 then
    [BSL, Char.ofNat 120, hexDigitChar (c.toNat / 16), hexDigitChar (c.toNat % 16)]
  else [c]

/-- CPython `repr` quote selection: single quotes unless the string
contains a single quote and no double quote. -/
def pyQuoteChar (s : List Char) : Char :=
  if s.contains SQ && !(s.contains DQ) then DQ else SQ

/-- CPython `repr` of one string: chosen quote, escaped body, chosen
quote. -/
def pyReprChars (s : List Char) : List Char :=
  pyQuoteChar s :: (s.flatMap (pyEscapeChar (pyQuoteChar s)) ++ [pyQuoteChar s])

/-- The comma-space separated item renderings inside a CPython list
display. -/
def pyItemsStr : List (List Char) → List Char
  | [] => []
  | [x] => pyReprChars x
  | x :: xs => pyReprChars x ++ ([Char.ofNat 44, Char.ofNat 32] ++ pyItemsStr xs)

/-- CPython `str(list)` of a list of strings: `[`, the comma-space
separated `repr`s, `]`. -/
def pyListStr (xs : List (List Char)) : List Char :=
  Char.ofNat 91 :: (pyItemsStr xs ++ [Char.ofNat 93])

/-- Lines 135-139: `_toolchain_file_list_to_str` returns
`str(list(map(str, values)))`.  With every value a string (the
assertion on lines 137-138 restricts values to strings and paths, and
paths are modelled as their strings), `map(str, ...)` is the identity
and the result is CPython's list display of the values. -/
def toolchain_file_list_to_str (values : List String) : String :=
  String.mk (pyListStr (values.map String.data))

/-- Value of one lower-case hexadecimal digit. -/
def hexVal (c : Char) : Option Nat :=
  if 48 ≤ c.toNat ∧ c.toNat ≤ 57 then some (c.toNat - 48)
  else if 97 ≤ c.toNat ∧ c.toNat ≤ 102 then some (c.toNat - 87)
  else none

/-- Parser for the body of a `q`-quoted Python string literal as
emitted by `pyReprChars`: consumes characters up to the closing quote,
undoing the escapes, and returns the decoded string together with the
unconsumed remainder. -/
def parsePyStrBody (q : Char) : List Char → Option (List Char × List Char)
  | [] => none
  | c :: cs =>
    if c = q then some ([], cs)
    else if c = BSL then
      match cs with
      | [] => none
      | e :: cs2 =>
        if e = BSL then (parsePyStrBody q cs2).map (fun r => (BSL :: r.1, r.2))
        else if e = Char.ofNat 116 then (parsePyStrBody q cs2).map (fun r => (TAB :: r.1, r.2))
        else if e = Char.ofNat 110 then (parsePyStrBody q cs2).map (fun r => (LF :: r.1, r.2))
        else if e = Char.ofNat 114 then (parsePyStrBody q cs2).map (fun r => (CR :: r.1, r.2))
        else if e = Char.ofNat 120 then
          match cs2 with
          | h1 :: h2 :: cs3 =>
            match hexVal h1, hexVal h2 with
            | some a, some b =>
              (parsePyStrBody q cs3).map (fun r => (Char.ofNat (16 * a + b) :: r.1, r.2))
            | _, _ => none
          | _ => none
        else if e = q then (parsePyStrBody q cs2).map (fun r => (q :: r.1, r.2))
        else none
    else (parsePyStrBody q cs).map (fun r => (c :: r.1, r.2))

/-- Parser for the non-empty comma-space separated item list followed
by the closing bracket; the fuel bounds the number of items. -/
def parsePyItems : Nat → List Char → Option (List (List Char))
  | 0, _ => none
  | _ + 1, [] => none
  | fuel + 1, c :: cs =>
    if c = SQ ∨ c = DQ then
      match parsePyStrBody c cs with
      | none => none
      | some (s, rest) =>
        if rest = [Char.ofNat 93] then some [s]
        else
          match rest with
          | r1 :: r2 :: rest2 =>
            if r1 = Char.ofNat 44 ∧ r2 = Char.ofNat 32 then
              (parsePyItems fuel rest2).map (fun l => s :: l)
            else none
          | _ => none
    else none

/-- Parser for a CPython list display of strings: the inverse direction
of the round-trip property for `toolchain_file_list_to_str`. -/
def parsePyStrList (s : String) : Option (List String) :=
  match s.data with
  | [] => none
  | c :: rest =>
    if c = Char.ofNat 91 then
      if rest = [Char.ofNat 93] then some []
      else (parsePyItems rest.length rest).map (fun l => l.map String.mk)
    else none

theorem hexVal_hexDigitChar (n : Nat) (h : n < 16) : hexVal (hexDigitChar n) = some n := by
  interval_cases n <;> decide

theorem pyQuoteChar_or (s : List Char) : pyQuoteChar s = SQ ∨ pyQuoteChar s = DQ := by
  unfold pyQuoteChar
  split
  · exact Or.inr rfl
  · exact Or.inl rfl

theorem parsePyStrBody_close (q : Char) (cs : List Char) :
    parsePyStrBody q (q :: cs) = some ([], cs) := by
  conv_lhs => unfold parsePyStrBody
  simp

theorem parsePyStrBody_lit (q c : Char) (cs : List Char) (h1 : ¬(c = q)) (h2 : ¬(c = BSL)) :
    parsePyStrBody q (c :: cs) = (parsePyStrBody q cs).map (fun r => (c :: r.1, r.2)) := by
  conv_lhs => unfold parsePyStrBody
  simp [h1, h2]

theorem parsePyStrBody_escBSL (q : Char) (hBq : ¬(BSL = q)) (cs : List Char) :
    parsePyStrBody q (BSL :: BSL :: cs) =
      (parsePyStrBody q cs).map (fun r => (BSL :: r.1, r.2)) := by
  conv_lhs => unfold parsePyStrBody
  simp [hBq]

theorem parsePyStrBody_escT (q : Char) (hBq : ¬(BSL = q)) (cs : List Char) :
    parsePyStrBody q (BSL :: Char.ofNat 116 :: cs) =
      (parsePyStrBody q cs).map (fun r => (TAB :: r.1, r.2)) := by
  conv_lhs => unfold parsePyStrBody
  simp [hBq, (by decide : ¬(Char.ofNat 116 = BSL))]

theorem parsePyStrBody_escN (q : Char) (hBq : ¬(BSL = q)) (cs : List Char) :
    parsePyStrBody q (BSL :: Char.ofNat 110 :: cs) =
      (parsePyStrBody q cs).map (fun r => (LF :: r.1, r.2)) := by
  conv_lhs => unfold parsePyStrBody
  simp [hBq, (by decide : ¬(Char.ofNat 110 = BSL)),
    (by decide : ¬(Char.ofNat 110 = Char.ofNat 116))]

theorem parsePyStrBody_escR (q : Char) (hBq : ¬(BSL = q)) (cs : List Char) :
    parsePyStrBody q (BSL :: Char.ofNat 114 :: cs) =
      (parsePyStrBody q cs).map (fun r => (CR :: r.1, r.2)) := by
  conv_lhs => unfold parsePyStrBody
  simp [hBq, (by decide : ¬(Char.ofNat 114 = BSL)),
    (by decide : ¬(Char.ofNat 114 = Char.ofNat 116)),
    (by decide : ¬(Char.ofNat 114 = Char.ofNat 110))]

theorem parsePyStrBody_escX (q : Char) (hBq : ¬(BSL = q)) (h1 h2 : Char) (a b : Nat)
    (hh1 : hexVal h1 = some a) (hh2 : hexVal h2 = some b) (cs : List Char) :
    parsePyStrBody q (BSL :: Char.ofNat 120 :: h1 :: h2 :: cs) =
      (parsePyStrBody q cs).map (fun r => (Char.ofNat (16 * a + b) :: r.1, r.2)) := by
  conv_lhs => unfold parsePyStrBody
  simp [hBq, hh1, hh2, (by decide : ¬(Char.ofNat 120 = BSL)),
    (by decide : ¬(Char.ofNat 120 = Char.ofNat 116)),
    (by decide : ¬(Char.ofNat 120 = Char.ofNat 110)),
    (by decide : ¬(Char.ofNat 120 = Char.ofNat 114))]

theorem parsePyStrBody_escQ (q : Char) (hBq : ¬(BSL = q)) (hqB : ¬(q = BSL))
    (hq116 : ¬(q = Char.ofNat 116)) (hq110 : ¬(q = Char.ofNat 110))
    (hq114 : ¬(q = Char.ofNat 114)) (hq120 : ¬(q = Char.ofNat 120)) (cs : List Char) :
    parsePyStrBody q (BSL :: q :: cs) =
      (parsePyStrBody q cs).map (fun r => (q :: r.1, r.2)) := by
  conv_lhs => unfold parsePyStrBody
  simp [hBq, hqB, hq116, hq110, hq114, hq120]

theorem parsePyStrBody_flatMap (q : Char) (hq : q = SQ ∨ q = DQ) :
    ∀ (s rest : List Char),
      parsePyStrBody q (s.flatMap (pyEscapeChar q) ++ (q :: rest)) = some (s, rest) := by
  have hqB : ¬(q = BSL) := by rcases hq with h | h <;> subst h <;> decide
  have hBq : ¬(BSL = q) := fun h => hqB h.symm
  have hq116 : ¬(q = Char.ofNat 116) := by rcases hq with h | h <;> subst h <;> decide
  have hq110 : ¬(q = Char.ofNat 110) := by rcases hq with h | h <;> subst h <;> decide
  have hq114 : ¬(q = Char.ofNat 114) := by rcases hq with h | h <;> subst h <;> decide
  have hq120 : ¬(q = Char.ofNat 120) := by rcases hq with h | h <;> subst h <;> decide
  intro s
  induction s with
  | nil =>
    intro rest
    rw [List.flatMap_nil, List.nil_append, parsePyStrBody_close]
  | cons c s ih =>
    intro rest
    rw [List.flatMap_cons, List.append_assoc]
    by_cases hc1 : c = BSL
    · subst hc1
      rw [show pyEscapeChar q BSL = [BSL, BSL] from by simp [pyEscapeChar]]
      rw [List.cons_append, List.cons_append, List.nil_append]
      rw [parsePyStrBody_escBSL q hBq, ih rest]
      rfl
    · by_cases hc2 : c = q
      · subst hc2
        rw [show pyEscapeChar c c = [BSL, c] from by simp [pyEscapeChar, hc1]]
        rw [List.cons_append, List.cons_append, List.nil_append]
        rw [parsePyStrBody_escQ c hBq hqB hq116 hq110 hq114 hq120, ih rest]
        rfl
      · by_cases hc3 : c = TAB
        · subst hc3
          rw [show pyEscapeChar q TAB = [BSL, Char.ofNat 116] from by
            simp [pyEscapeChar, hc2, (by decide : ¬(TAB = BSL))]]
          rw [List.cons_append, List.cons_append, List.nil_append]
          rw [parsePyStrBody_escT q hBq, ih rest]
          rfl
        · by_cases hc4 : c = LF
          · subst hc4
            rw [show pyEscapeChar q LF = [BSL, Char.ofNat 110] from by
              simp [pyEscapeChar, hc2, (by decide : ¬(LF = BSL)), (by decide : ¬(LF = TAB))]]
            rw [List.cons_append, List.cons_append, List.nil_append]
            rw [parsePyStrBody_escN q hBq, ih rest]
            rfl
          · by_cases hc5 : c = CR
            · subst hc5
              rw [show pyEscapeChar q CR = [BSL, Char.ofNat 114] from by
                simp [pyEscapeChar, hc2, (by decide : ¬(CR = BSL)), (by decide : ¬(CR = TAB)),
                  (by decide : ¬(CR = LF))]]
              rw [List.cons_append, List.cons_append, List.nil_append]
              rw [parsePyStrBody_escR q hBq, ih rest]
              rfl
            · by_cases hc6 : c.toNat < 32 ∨ c.toNat = 127
              · rw [show pyEscapeChar q c = [BSL, Char.ofNat 120,
                    hexDigitChar (c.toNat / 16), hexDigitChar (c.toNat % 16)] from by
                  simp [pyEscapeChar, hc1, hc2, hc3, hc4, hc5, hc6]]
                rw [List.cons_append, List.cons_append, List.cons_append, List.cons_append,
                  List.nil_append]
                have hle : c.toNat ≤ 127 := by rcases hc6 with h | h <;> omega
                have hdiv : c.toNat / 16 < 16 := by omega
                have hmod : c.toNat % 16 < 16 := by omega
                rw [parsePyStrBody_escX q hBq _ _ _ _
                  (hexVal_hexDigitChar _ hdiv) (hexVal_hexDigitChar _ hmod), ih rest]
                have hcc : Char.ofNat (16 * (c.toNat / 16) + c.toNat % 16) = c := by
                  rw [show 16 * (c.toNat / 16) + c.toNat % 16 = c.toNat from by omega]
                  exact Char.ofNat_toNat c
                simp [hcc]
              · rw [show pyEscapeChar q c = [c] from by
                  simp [pyEscapeChar, hc1, hc2, hc3, hc4, hc5, hc6]]
                rw [List.cons_append, List.nil_append]
                rw [parsePyStrBody_lit q c _ hc2 hc1, ih rest]
                rfl

theorem pyItemsStr_cons2 (x y : List Char) (t : List (List Char)) :
    pyItemsStr (x :: y :: t) =
      pyReprChars x ++ ([Char.ofNat 44, Char.ofNat 32] ++ pyItemsStr (y :: t)) := rfl

theorem pyReprChars_length (x : List Char) : 2 ≤ (pyReprChars x).length := by
  unfold pyReprChars
  simp

theorem length_le_pyItemsStr : ∀ L : List (List Char), L.length ≤ (pyItemsStr L).length := by
  intro L
  induction L with
  | nil => simp [pyItemsStr]
  | cons x t ih =>
    cases t with
    | nil =>
      have h := pyReprChars_length x
      rw [show pyItemsStr [x] = pyReprChars x from rfl]
      simp
      omega
    | cons y t2 =>
      have h1 := pyReprChars_length x
      rw [pyItemsStr_cons2 x y t2]
      rw [List.length_cons, List.length_append, List.length_append]
      rw [List.length_cons] at ih
      simp only [List.length_cons]
      omega

theorem parsePyItems_render :
    ∀ (xs : List (List Char)) (fuel : Nat), xs ≠ [] → xs.length ≤ fuel →
      parsePyItems fuel (pyItemsStr xs ++ [Char.ofNat 93]) = some xs := by
  intro xs
  induction xs with
  | nil =>
    intro fuel h _
    exact absurd rfl h
  | cons x t ih =>
    intro fuel _ hlen
    cases fuel with
    | zero => simp at hlen
    | succ f =>
      cases t with
      | nil =>
        rw [show pyItemsStr [x] = pyReprChars x from rfl]
        unfold pyReprChars
        simp only [List.append_assoc, List.cons_append, List.nil_append]
        conv_lhs => unfold parsePyItems
        rw [if_pos (pyQuoteChar_or x)]
        rw [parsePyStrBody_flatMap (pyQuoteChar x) (pyQuoteChar_or x) x [Char.ofNat 93]]
        simp
      | cons y t2 =>
        rw [pyItemsStr_cons2 x y t2]
        unfold pyReprChars
        simp only [List.append_assoc, List.cons_append, List.nil_append]
        conv_lhs => unfold parsePyItems
        rw [if_pos (pyQuoteChar_or x)]
        rw [parsePyStrBody_flatMap (pyQuoteChar x) (pyQuoteChar_or x) x
          (Char.ofNat 44 :: Char.ofNat 32 :: (pyItemsStr (y :: t2) ++ [Char.ofNat 93]))]
        have hne93 : ¬((Char.ofNat 44 : Char) :: Char.ofNat 32 ::
            (pyItemsStr (y :: t2) ++ [Char.ofNat 93]) = [Char.ofNat 93]) := by
          intro h
          injection h with h1 _
          exact absurd h1 (by decide)
        have hlen2 : (y :: t2).length ≤ f := by
          simp only [List.length_cons] at hlen ⊢
          omega
        dsimp only
        rw [if_neg hne93]
        rw [if_pos ⟨rfl, rfl⟩]
        rw [ih f (by simp) hlen2]
        rfl

theorem string_mk_data (s : String) : String.mk s.data = s := rfl

theorem pyItemsStr_cons_length (a : List Char) (t : List (List Char)) :
    2 ≤ (pyItemsStr (a :: t)).length := by
  cases t with
  | nil => exact pyReprChars_length a
  | cons y t2 =>
    rw [pyItemsStr_cons2, List.length_append]
    have h := pyReprChars_length a
    omega

/-- C5: rendering a list of strings with `toolchain_file_list_to_str`
(CPython's `str(list(...))` display, lines 135-139) and parsing the
bracketed list back with `parsePyStrList` recovers exactly the original
ordered list of strings: the round trip is the identity. -/
theorem c5_toolchain_list_round_trip (values : List String) :
    parsePyStrList (toolchain_file_list_to_str values) = some values := by
  cases values with
  | nil => rfl
  | cons v vs =>
    unfold toolchain_file_list_to_str pyListStr parsePyStrList
    rw [List.map_cons]
    dsimp only
    rw [if_pos rfl]
    have hne : ¬(pyItemsStr (v.data :: vs.map String.data) ++ [Char.ofNat 93] =
        [Char.ofNat 93]) := by
      intro h
      have hl := congrArg List.length h
      rw [List.length_append] at hl
      have h2 := pyItemsStr_cons_length v.data (vs.map String.data)
      simp only [List.length_cons, List.length_nil] at hl
      omega
    rw [if_neg hne]
    have hlen : (v.data :: vs.map String.data).length ≤
        (pyItemsStr (v.data :: vs.map String.data) ++ [Char.ofNat 93]).length := by
      have h3 := length_le_pyItemsStr (v.data :: vs.map String.data)
      rw [List.length_append]
      omega
    rw [parsePyItems_render (v.data :: vs.map String.data) _ (by simp) hlen]
    simp [string_mk_data, List.map_map, Function.comp]
    rw [show (String.mk ∘ String.data) = id from funext fun s => rfl, List.map_id]
